import Mathlib

/-!
Verification of the lesson-extraction and generation logic of
`src/app.py` (BiteSizedLearning).

Python strings are embedded as `List Char`.  The Python standard-library
function `json.loads` (an external collaborator of the repository) is
modelled by an executable recursive-descent JSON reader `json_loads`
below, following RFC 8259 syntax as accepted by Python's strict decoder
(whole-input parse, `null`/`true`/`false` literals, strings with escape
sequences, numbers, arrays, objects, plus Python's `NaN`/`Infinity`
extensions).
-/

set_option maxRecDepth 40000

namespace BiteSized

/-! ### Python string primitives -/

/-- The whitespace characters removed by Python's `str.strip()`
(restricted to the ASCII range; the responses modelled here are ASCII). -/
def py_isspace (c : Char) : Bool :=
  c = ' ' || c = '\t' || c = '\n' || c = '\r' || c = '\x0b' || c = '\x0c'

/-- Python `text.strip()`: remove leading and trailing whitespace. -/
def strip (l : List Char) : List Char :=
  ((l.dropWhile py_isspace).reverse.dropWhile py_isspace).reverse

/-- Index of the first occurrence of `c`, if any. -/
def find_from (c : Char) : List Char → Option Nat
  | [] => none
  | x :: xs => if x = c then some 0 else (find_from c xs).map (· + 1)

/-- Python `text.find(c)`: lowest index of `c`, or `-1` when absent. -/
def find_char (c : Char) (l : List Char) : Int :=
  match find_from c l with
  | some i => (i : Int)
  | none => -1

/-- Index of the last occurrence of `c`, if any. -/
def rfind_from (c : Char) (l : List Char) : Option Nat :=
  (find_from c l.reverse).map (fun i => l.length - 1 - i)

/-- Python `text.rfind(c)`: highest index of `c`, or `-1` when absent. -/
def rfind_char (c : Char) (l : List Char) : Int :=
  match rfind_from c l with
  | some i => (i : Int)
  | none => -1

/-- Python slice `text[a:b]` for non-negative bounds. -/
def pyslice (l : List Char) (a b : Nat) : List Char :=
  (l.drop a).take (b - a)

/-! ### JSON values and a model of Python's `json.loads` -/

/-- A parsed JSON value.  Numbers keep their source lexeme: no claim about
the program depends on numeric decoding, only on parse success and on
value equality of values parsed from the very same text. -/
inductive Json where
  | null : Json
  | bool (b : Bool) : Json
  | num (lexeme : List Char) : Json
  | str (s : List Char) : Json
  | arr (elems : List Json) : Json
  | obj (members : List (List Char × Json)) : Json

/-- JSON insignificant whitespace (what `json.loads` skips between tokens). -/
def json_ws (c : Char) : Bool :=
  c = ' ' || c = '\t' || c = '\n' || c = '\r'

def skip_ws (l : List Char) : List Char := l.dropWhile json_ws

def is_hex (c : Char) : Bool :=
  c.isDigit || ('a' ≤ c && c ≤ 'f') || ('A' ≤ c && c ≤ 'F')

def hex_val (c : Char) : Nat :=
  if c.isDigit then c.toNat - '0'.toNat
  else if 'a' ≤ c then c.toNat - 'a'.toNat + 10
  else c.toNat - 'A'.toNat + 10

/-- Single-character escape sequences of JSON strings. -/
def esc_char (c : Char) : Option Char :=
  if c = '\"' then some '\"'
  else if c = '\\' then some '\\'
  else if c = '/' then some '/'
  else if c = 'b' then some '\x08'
  else if c = 'f' then some '\x0c'
  else if c = 'n' then some '\n'
  else if c = 'r' then some '\r'
  else if c = 't' then some '\t'
  else none

/-- Body of a JSON string, after the opening quote: returns the decoded
characters and the input after the closing quote.  Unescaped control
characters are rejected, as by Python's strict decoder. -/
def parse_string_body : List Char → Option (List Char × List Char)
  | [] => none
  | '\"' :: rest => some ([], rest)
  | '\\' :: 'u' :: a :: b :: c :: d :: rest =>
    if is_hex a && is_hex b && is_hex c && is_hex d then
      (parse_string_body rest).map (fun r =>
        (Char.ofNat (((hex_val a * 16 + hex_val b) * 16 + hex_val c) * 16 + hex_val d) :: r.1,
         r.2))
    else none
  | '\\' :: e :: rest =>
    match esc_char e with
    | some c => (parse_string_body rest).map (fun r => (c :: r.1, r.2))
    | none => none
  | c :: rest =>
    if c.toNat < 32 then none
    else (parse_string_body rest).map (fun r => (c :: r.1, r.2))

/-- Longest digit run at the front of the input. -/
def parse_digits (l : List Char) : List Char × List Char :=
  (l.takeWhile Char.isDigit, l.dropWhile Char.isDigit)

/-- Integer part of a JSON number: `0`, or a nonzero digit followed by
more digits. -/
def parse_int_part : List Char → Option (List Char × List Char)
  | '0' :: rest => some (['0'], rest)
  | c :: rest =>
    if c.isDigit then some (parse_digits (c :: rest)) else none
  | [] => none

/-- Optional fraction part `.digits`. -/
def parse_frac : List Char → List Char × List Char
  | '.' :: c :: rest =>
    if c.isDigit then
      let p := parse_digits (c :: rest)
      ('.' :: p.1, p.2)
    else ([], '.' :: c :: rest)
  | l => ([], l)

/-- Optional exponent part `[eE][+-]?digits`. -/
def parse_exp : List Char → List Char × List Char
  | e :: s :: c :: rest =>
    if e = 'e' || e = 'E' then
      if (s = '+' || s = '-') && c.isDigit then
        let p := parse_digits (c :: rest)
        (e :: s :: p.1, p.2)
      else if s.isDigit then
        let p := parse_digits (s :: c :: rest)
        (e :: p.1, p.2)
      else ([], e :: s :: c :: rest)
    else ([], e :: s :: c :: rest)
  | e :: s :: rest =>
    if (e = 'e' || e = 'E') && s.isDigit then
      let p := parse_digits (s :: rest)
      (e :: p.1, p.2)
    else ([], e :: s :: rest)
  | l => ([], l)

/-- A JSON number lexeme: optional sign, integer part, optional fraction
and exponent.  Returns the lexeme and the remaining input. -/
def parse_number (l : List Char) : Option (List Char × List Char) :=
  let sp : List Char × List Char :=
    match l with
    | '-' :: rest => (['-'], rest)
    | _ => ([], l)
  match parse_int_part sp.2 with
  | some ip =>
    let fp := parse_frac ip.2
    let ep := parse_exp fp.2
    some (sp.1 ++ ip.1 ++ fp.1 ++ ep.1, ep.2)
  | none => none

/-- Consume an exact literal prefix. -/
def eat_lit (pre l : List Char) : Option (List Char) :=
  if pre.isPrefixOf l then some (l.drop pre.length) else none

mutual

/-- One JSON value (after skipping leading whitespace) and the remaining
input.  `fuel` bounds recursion depth; `json_loads` supplies enough. -/
def parse_value : Nat → List Char → Option (Json × List Char)
  | 0, _ => none
  | fuel + 1, input =>
    match skip_ws input with
    | [] => none
    | c :: rest =>
      if c = '\"' then
        (parse_string_body rest).map (fun p => (Json.str p.1, p.2))
      else if c = '{' then
        match skip_ws rest with
        | '}' :: r => some (Json.obj [], r)
        | l1 => (parse_members fuel l1).map (fun p => (Json.obj p.1, p.2))
      else if c = '[' then
        match skip_ws rest with
        | ']' :: r => some (Json.arr [], r)
        | l1 => (parse_elems fuel l1).map (fun p => (Json.arr p.1, p.2))
      else if c = 't' then
        (eat_lit "true".toList (c :: rest)).map (fun r => (Json.bool true, r))
      else if c = 'f' then
        (eat_lit "false".toList (c :: rest)).map (fun r => (Json.bool false, r))
      else if c = 'n' then
        (eat_lit "null".toList (c :: rest)).map (fun r => (Json.null, r))
      else if c = 'N' then
        (eat_lit "NaN".toList (c :: rest)).map (fun r => (Json.num "NaN".toList, r))
      else if c = 'I' then
        (eat_lit "Infinity".toList (c :: rest)).map
          (fun r => (Json.num "Infinity".toList, r))
      else if c = '-' && "-Infinity".toList.isPrefixOf (c :: rest) then
        (eat_lit "-Infinity".toList (c :: rest)).map
          (fun r => (Json.num "-Infinity".toList, r))
      else if c = '-' || c.isDigit then
        (parse_number (c :: rest)).map (fun p => (Json.num p.1, p.2))
      else none

/-- One or more `"key": value` members followed by `}`. -/
def parse_members : Nat → List Char → Option (List (List Char × Json) × List Char)
  | 0, _ => none
  | fuel + 1, l => do
    let kv ← parse_pair fuel l
    match skip_ws kv.2 with
    | ',' :: r3 => (parse_members fuel r3).map (fun p => (kv.1 :: p.1, p.2))
    | '}' :: r3 => some ([kv.1], r3)
    | _ => none

/-- A single `"key": value` member. -/
def parse_pair : Nat → List Char → Option ((List Char × Json) × List Char)
  | 0, _ => none
  | fuel + 1, l =>
    match skip_ws l with
    | '\"' :: rest => do
      let k ← parse_string_body rest
      match skip_ws k.2 with
      | ':' :: r3 => (parse_value fuel r3).map (fun p => ((k.1, p.1), p.2))
      | _ => none
    | _ => none

/-- One or more array elements followed by `]`. -/
def parse_elems : Nat → List Char → Option (List Json × List Char)
  | 0, _ => none
  | fuel + 1, l => do
    let v ← parse_value fuel l
    match skip_ws v.2 with
    | ',' :: r3 => (parse_elems fuel r3).map (fun p => (v.1 :: p.1, p.2))
    | ']' :: r3 => some ([v.1], r3)
    | _ => none

end

/-- Model of Python's `json.loads`: parse one JSON value and require that
nothing but whitespace follows; `none` stands for `json.JSONDecodeError`. -/
def json_loads (l : List Char) : Option Json :=
  match parse_value (3 * l.length + 3) l with
  | some (v, rest) => if skip_ws rest = [] then some v else none
  | none => none

/-! ### `extract_json_from_response` (src/app.py lines 76-105) -/

/-- The six top-level keys required of a lesson (lines 96-97). -/
def required_keys : List (List Char) :=
  ["title".toList, "category".toList, "concept".toList, "exercise".toList,
   "practicalApplication".toList, "reflection".toList]

/-- Python `key in data` on the parsed value.  The extracted substring
begins with a brace, so a successful parse is always a JSON object (see
`obj_of_required_keys` below); the dict-membership case is the
only one exercised. -/
def json_has_key (data : Json) (key : List Char) : Bool :=
  match data with
  | Json.obj ms => ms.any (fun m => m.1 = key)
  | _ => false

/-- The failure modes of `extract_json_from_response`:
`noJsonStructure` is `ValueError("No valid JSON structure found in
response")` (line 86), `missingKeys` is `ValueError("Missing required keys
in lesson content")` (line 99, raised inside the `try` but not caught by
the `except json.JSONDecodeError` clause), and `jsonDecodeError` is the
re-raised `json.JSONDecodeError` (line 105), carrying the attempted
substring that line 104 (`st.code(json_str)`) surfaces for diagnostics. -/
inductive ExtractError where
  | noJsonStructure : ExtractError
  | missingKeys : ExtractError
  | jsonDecodeError (json_str : List Char) : ExtractError
deriving DecidableEq

/-- Lines 92-105: parse `json_str`, check the six required keys, and map
each failure to its error. -/
def parse_and_validate (json_str : List Char) : Except ExtractError Json :=
  match json_loads json_str with
  | some data =>
    if required_keys.all (fun key => json_has_key data key) then Except.ok data
    else Except.error ExtractError.missingKeys
  | none => Except.error (ExtractError.jsonDecodeError json_str)

/-- Lines 76-105: strip the text, find the first `\x7b` and the last
`\x7d`, fail when either is absent, and otherwise parse and validate
`text[start:end + 1]`. -/
def extract_json_from_response (text : List Char) : Except ExtractError Json :=
  let text := strip text
  let start := find_char '{' text
  let e := rfind_char '}' text
  if start = -1 ∨ e = -1 then Except.error ExtractError.noJsonStructure
  else parse_and_validate (pyslice text start.toNat (e.toNat + 1))

/-! ### `generate_lesson` (src/app.py lines 107-154) -/

/-- Outcomes of the two `client.chat.completions.create` calls (lines
119-124 and 138-143), abstracting the remote service: `Except.ok` carries
`choices[0].message.content`, `Except.error` a transport/API exception
message. -/
structure GroqApi where
  topic_outcome : Except (List Char) (List Char)
  lesson_outcome : Except (List Char) (List Char)

/-- The exceptions that can arise inside the `try` block of
`generate_lesson` and reach its `except Exception` clause. -/
inductive PyExn where
  | nameError (nm : List Char) : PyExn
  | apiError (msg : List Char) : PyExn
  | extractError (e : ExtractError) : PyExn
deriving DecidableEq

/-- The `try` block of `generate_lesson` (lines 109-148).  The first
statement (line 111) evaluates `groq.Groq(api_key=api_key)`, but the
module only binds `Groq` (line 2: `from groq import Groq`) and never the
name `groq`, so this raises `NameError: name 'groq' is not defined`
before either API call is made; the remaining steps are the two
completion calls and extraction, each short-circuiting on failure. -/
def generate_lesson_try (api : GroqApi) (category api_key : List Char) :
    Except PyExn Json := do
  let _client ← (Except.error (PyExn.nameError "groq".toList) : Except PyExn Unit)
  let topic_raw ← api.topic_outcome.mapError PyExn.apiError
  let _topic := strip topic_raw
  let response_text ← api.lesson_outcome.mapError PyExn.apiError
  let lesson ← (extract_json_from_response response_text).mapError PyExn.extractError
  return lesson

/-- `str(e)` for the exceptions above, as interpolated at line 151. -/
def exn_message : PyExn → List Char
  | PyExn.nameError nm => "name ".toList ++ nm ++ " is not defined".toList
  | PyExn.apiError msg => msg
  | PyExn.extractError ExtractError.noJsonStructure =>
    "No valid JSON structure found in response".toList
  | PyExn.extractError ExtractError.missingKeys =>
    "Missing required keys in lesson content".toList
  | PyExn.extractError (ExtractError.jsonDecodeError _) =>
    "Expecting value".toList

/-- Line 153: `response_text if 'response_text' in locals() else "No
response received"` — `response_text` is bound exactly when the second
completion call succeeded, i.e. when the failure arose in extraction. -/
def shown_response (api : GroqApi) (e : PyExn) : List Char :=
  match e, api.lesson_outcome with
  | PyExn.extractError _, Except.ok r => r
  | _, _ => "No response received".toList

/-- Lines 107-154: run the `try` block; on success return the lesson with
no diagnostics, and on any exception return `None` together with the
three `st.error`/`st.code` diagnostic messages of lines 151-153.  The
`except Exception` clause catches every exception the body can raise, so
the function is total: it never propagates an exception to its caller. -/
def generate_lesson (api : GroqApi) (category api_key : List Char) :
    Option Json × List (List Char) :=
  match generate_lesson_try api category api_key with
  | Except.ok lesson => (some lesson, [])
  | Except.error e =>
    (none,
     ["Error details: ".toList ++ exn_message e,
      "Response received:".toList,
      shown_response api e])

/-! ### Session state and the generate-button step of `main`
(src/app.py lines 65-74 and 250-267) -/

/-- The session-state fields the claims are about (lines 69-74):
`current_lesson`, `selected_answer`, `reflection_text`. -/
structure SessionState where
  current_lesson : Option Json
  selected_answer : Option Int
  reflection_text : List Char

/-- Python truthiness of a parsed JSON value, as tested by `if lesson:`
(line 260).  For numbers, a nonzero digit in the lexeme approximates a
nonzero value; only top-level objects ever reach this test (see
`obj_of_required_keys`), so the approximation is unexercised. -/
def py_truthy : Json → Bool
  | Json.null => false
  | Json.bool b => b
  | Json.num lex => lex.any (fun c => '1' ≤ c && c ≤ '9')
  | Json.str s => !s.isEmpty
  | Json.arr xs => !xs.isEmpty
  | Json.obj ms => !ms.isEmpty

/-- Lines 260-263: when the generation result is truthy, replace the
current lesson, clear the selected answer and reset the reflection text;
otherwise leave the session state untouched. -/
def apply_lesson_result (r : Option Json) (s : SessionState) : SessionState :=
  match r with
  | some lesson =>
    if py_truthy lesson then SessionState.mk (some lesson) none [] else s
  | none => s

/-- Lines 255-264 of `main`: one press of "Generate New Lesson" with a
non-empty key, from the session-state point of view.  The surrounding
`try`/`except` (lines 258, 265-267) is redundant in the model because
`generate_lesson` is total. -/
def main_generate_step (api : GroqApi) (category api_key : List Char)
    (s : SessionState) : SessionState :=
  apply_lesson_result (generate_lesson api category api_key).1 s

/-! ### Specification-side characterizations of the string primitives -/

/-- `i` is the index of the first occurrence of `c` in `l`. -/
def is_first_occurrence (l : List Char) (c : Char) (i : Nat) : Prop :=
  l.get? i = some c ∧ ∀ k, k < i → l.get? k ≠ some c

/-- `j` is the index of the last occurrence of `c` in `l`. -/
def is_last_occurrence (l : List Char) (c : Char) (j : Nat) : Prop :=
  l.get? j = some c ∧ ∀ k, k < l.length → j < k → l.get? k ≠ some c

instance (l : List Char) (c : Char) (i : Nat) :
    Decidable (is_first_occurrence l c i) := by
  unfold is_first_occurrence; infer_instance

instance (l : List Char) (c : Char) (j : Nat) :
    Decidable (is_last_occurrence l c j) := by
  unfold is_last_occurrence; infer_instance

theorem find_from_none {c : Char} :
    ∀ {l : List Char}, find_from c l = none → c ∉ l := by
  intro l
  induction l with
  | nil => intro _ h; cases h
  | cons x xs ih =>
    intro h hm
    by_cases hx : x = c
    · simp [find_from, hx] at h
    · simp only [find_from, if_neg hx] at h
      rcases List.mem_cons.mp hm with rfl | hm'
      · exact hx rfl
      · exact ih (Option.map_eq_none.mp h) hm'

theorem find_from_some {c : Char} :
    ∀ {l : List Char} {i : Nat}, find_from c l = some i →
      l.get? i = some c ∧ ∀ k, k < i → l.get? k ≠ some c := by
  intro l
  induction l with
  | nil => intro i h; cases h
  | cons x xs ih =>
    intro i h
    by_cases hx : x = c
    · simp only [find_from, if_pos hx] at h
      cases h
      exact ⟨by simp [hx], fun k hk => absurd hk (Nat.not_lt_zero k)⟩
    · simp only [find_from, if_neg hx] at h
      rcases Option.map_eq_some.mp h with ⟨i', hi', rfl⟩
      rcases ih hi' with ⟨h1, h2⟩
      refine ⟨by simpa using h1, ?_⟩
      intro k hk
      cases k with
      | zero => simpa using hx
      | succ k' => simpa using h2 k' (Nat.lt_of_succ_lt_succ hk)

theorem find_from_of_first {l : List Char} {c : Char} {i : Nat}
    (h : is_first_occurrence l c i) : find_from c l = some i := by
  cases hf : find_from c l with
  | none => exact absurd (List.get?_mem h.1) (find_from_none hf)
  | some i' =>
    rcases find_from_some hf with ⟨h1, h2⟩
    rcases Nat.lt_trichotomy i i' with hlt | rfl | hgt
    · exact absurd h.1 (h2 i hlt)
    · rfl
    · exact absurd h1 (h.2 i' hgt)

theorem rfind_from_of_last {l : List Char} {c : Char} {j : Nat}
    (h : is_last_occurrence l c j) : rfind_from c l = some j := by
  have hjlen : j < l.length := by
    rcases List.get?_eq_some.mp h.1 with ⟨hj, _⟩
    exact hj
  have hrev : is_first_occurrence l.reverse c (l.length - 1 - j) := by
    constructor
    · rw [List.get?_reverse (by omega)]
      have : l.length - 1 - (l.length - 1 - j) = j := by omega
      rw [this]; exact h.1
    · intro k hk
      have hk' : k < l.length := by omega
      rw [List.get?_reverse (by simpa using hk')]
      exact h.2 (l.length - 1 - k) (by omega) (by omega)
  unfold rfind_from
  rw [find_from_of_first hrev]
  have harith : l.length - 1 - (l.length - 1 - j) = j := by omega
  simp [harith]

theorem mem_strip_of_mem {c : Char} {l : List Char}
    (hc : py_isspace c = false) (h : c ∈ l) : c ∈ strip l := by
  have step : ∀ m : List Char, c ∈ m → c ∈ m.dropWhile py_isspace := by
    intro m hm
    induction m with
    | nil => cases hm
    | cons x xs ih =>
      by_cases hx : py_isspace x = true
      · rw [List.dropWhile_cons_of_pos hx]
        rcases List.mem_cons.mp hm with rfl | hm'
        · rw [hc] at hx; cases hx
        · exact ih hm'
      · rw [List.dropWhile_cons_of_neg hx]
        exact hm
  unfold strip
  rw [List.mem_reverse]
  exact step _ (by rw [List.mem_reverse]; exact step _ h)

theorem mem_of_mem_strip {c : Char} {l : List Char} (h : c ∈ strip l) : c ∈ l := by
  unfold strip at h
  rw [List.mem_reverse] at h
  have h1 := (List.dropWhile_sublist py_isspace).subset h
  rw [List.mem_reverse] at h1
  exact (List.dropWhile_sublist py_isspace).subset h1

/-- `strip` removes only surrounding whitespace: the original text is the
stripped text surrounded by whitespace. -/
theorem strip_decomposition (l : List Char) :
    ∃ pre post, l = pre ++ strip l ++ post ∧
      (∀ a ∈ pre, py_isspace a = true) ∧ (∀ b ∈ post, py_isspace b = true) := by
  refine ⟨l.takeWhile py_isspace,
    ((l.dropWhile py_isspace).reverse.takeWhile py_isspace).reverse, ?_, ?_, ?_⟩
  · set m := l.dropWhile py_isspace with hm
    have h1 : l = l.takeWhile py_isspace ++ m := (List.takeWhile_append_dropWhile _ _).symm
    have h2 : m.reverse = m.reverse.takeWhile py_isspace ++ m.reverse.dropWhile py_isspace :=
      (List.takeWhile_append_dropWhile _ _).symm
    have h3 : m = (m.reverse.dropWhile py_isspace).reverse ++
        (m.reverse.takeWhile py_isspace).reverse := by
      have := congrArg List.reverse h2
      rwa [List.reverse_reverse, List.reverse_append] at this
    calc l = l.takeWhile py_isspace ++ m := h1
      _ = l.takeWhile py_isspace ++ ((m.reverse.dropWhile py_isspace).reverse ++
            (m.reverse.takeWhile py_isspace).reverse) := by rw [← h3]
      _ = l.takeWhile py_isspace ++ strip l ++
            (m.reverse.takeWhile py_isspace).reverse := by
          rw [List.append_assoc]; rfl
  · exact fun a ha => List.mem_takeWhile_imp ha
  · intro b hb
    rw [List.mem_reverse] at hb
    exact List.mem_takeWhile_imp hb

/-- Dropping a predicate-true prefix distributes over appending a list
whose head falsifies the predicate. -/
theorem dropWhile_append_head_false (p : Char → Bool) (a : List Char) (x : Char)
    (xs : List Char) (hx : p x = false) :
    (a ++ x :: xs).dropWhile p = a.dropWhile p ++ x :: xs := by
  induction a with
  | nil => simp [List.dropWhile_cons, hx]
  | cons y ys ih =>
    by_cases hy : p y = true
    · simpa [List.dropWhile_cons, hy] using ih
    · simp [List.dropWhile_cons, hy]

theorem rfind_from_some {l : List Char} {c : Char} {j : Nat}
    (h : rfind_from c l = some j) : is_last_occurrence l c j := by
  unfold rfind_from at h
  rcases Option.map_eq_some.mp h with ⟨i', hi', rfl⟩
  rcases find_from_some hi' with ⟨h1, h2⟩
  have hilen : i' < l.length := by
    rcases List.get?_eq_some.mp h1 with ⟨hi, _⟩
    simpa using hi
  constructor
  · rw [List.get?_reverse hilen] at h1
    exact h1
  · intro k hklen hjk
    have hrk : l.length - 1 - k < i' := by omega
    have := h2 (l.length - 1 - k) hrk
    rw [List.get?_reverse (by omega)] at this
    have harith : l.length - 1 - (l.length - 1 - k) = k := by omega
    rwa [harith] at this

theorem find_char_eq_neg_one {c : Char} {l : List Char} (h : c ∉ l) :
    find_char c l = -1 := by
  unfold find_char
  cases hf : find_from c l with
  | none => rfl
  | some i => exact absurd (List.get?_mem (find_from_some hf).1) h

theorem rfind_char_eq_neg_one {c : Char} {l : List Char} (h : c ∉ l) :
    rfind_char c l = -1 := by
  unfold rfind_char rfind_from
  cases hf : find_from c l.reverse with
  | none => rfl
  | some i =>
    exact absurd (List.mem_reverse.mp (List.get?_mem (find_from_some hf).1)) h

theorem find_from_append_of_not_mem {c : Char} {a : List Char} (h : c ∉ a)
    (b : List Char) :
    find_from c (a ++ b) = (find_from c b).map (· + a.length) := by
  induction a with
  | nil => cases hb : find_from c b <;> simp [hb]
  | cons y ys ih =>
    have hy : y ≠ c := fun hyc => h (hyc ▸ List.mem_cons_self y ys)
    have h' : c ∉ ys := fun hm => h (List.mem_cons_of_mem y hm)
    have hstep : find_from c (y :: ys ++ b) = (find_from c (ys ++ b)).map (· + 1) := by
      simp [find_from, if_neg hy]
    rw [hstep, ih h', Option.map_map]
    cases hb : find_from c b with
    | none => rfl
    | some n =>
      show some (n + ys.length + 1) = some (n + (ys.length + 1))
      rw [Nat.add_assoc]

/-! ### Behaviour of `extract_json_from_response` -/

/-- A value that passes the required-keys check is a non-empty object. -/
theorem obj_of_required_keys {d : Json}
    (hall : required_keys.all (fun k => json_has_key d k) = true) :
    ∃ ms, d = Json.obj ms ∧ ms ≠ [] := by
  cases d with
  | obj ms =>
    refine ⟨ms, rfl, ?_⟩
    intro hnil
    subst hnil
    simp [required_keys, json_has_key] at hall
  | null => simp [required_keys, json_has_key] at hall
  | bool b => simp [required_keys, json_has_key] at hall
  | num lex => simp [required_keys, json_has_key] at hall
  | str s => simp [required_keys, json_has_key] at hall
  | arr xs => simp [required_keys, json_has_key] at hall

/-- When the stripped text lacks one of the braces, extraction fails with
the no-JSON-structure error. -/
theorem extract_no_brace {text : List Char}
    (h : '{' ∉ strip text ∨ '}' ∉ strip text) :
    extract_json_from_response text = Except.error ExtractError.noJsonStructure := by
  simp only [extract_json_from_response]
  rcases h with h | h
  · rw [find_char_eq_neg_one h]
    simp
  · rw [rfind_char_eq_neg_one h]
    simp

/-- When both braces occur, extraction parses and validates exactly the
slice of the stripped text from the first `\x7b` to the last `\x7d`. -/
theorem extract_eq_parse_of_occ {text : List Char} {i j : Nat}
    (hi : is_first_occurrence (strip text) '{' i)
    (hj : is_last_occurrence (strip text) '}' j) :
    extract_json_from_response text =
      parse_and_validate (pyslice (strip text) i (j + 1)) := by
  have hfc : find_char '{' (strip text) = (i : Int) := by
    unfold find_char
    rw [find_from_of_first hi]
  have hrc : rfind_char '}' (strip text) = (j : Int) := by
    unfold rfind_char
    rw [rfind_from_of_last hj]
  simp only [extract_json_from_response, hfc, hrc]
  have hcond : ¬ ((i : Int) = -1 ∨ (j : Int) = -1) := by omega
  rw [if_neg hcond]
  simp [Int.toNat_ofNat]

/-- `strip` of text that surrounds a block with non-whitespace endpoints
keeps the block intact and only trims within the surroundings. -/
theorem strip_append_mid {pre mid post : List Char} {x y : Char}
    (hhead : mid.head? = some x) (hlast : mid.getLast? = some y)
    (hx : py_isspace x = false) (hy : py_isspace y = false) :
    ∃ pre2 post2, strip (pre ++ mid ++ post) = pre2 ++ mid ++ post2 ∧
      (∀ c ∈ pre2, c ∈ pre) ∧ (∀ c ∈ post2, c ∈ post) := by
  obtain ⟨mt, rfl⟩ : ∃ mt, mid = x :: mt := by
    cases mid with
    | nil => cases hhead
    | cons a mt => exact ⟨mt, by cases hhead; rfl⟩
  obtain ⟨mr, hmr⟩ : ∃ mr, (x :: mt).reverse = y :: mr := by
    cases hrev : (x :: mt).reverse with
    | nil => exact absurd (congrArg List.length hrev) (by simp)
    | cons b mr =>
      refine ⟨mr, ?_⟩
      have hb : (x :: mt).getLast? = some b := by
        rw [← List.head?_reverse, hrev]
        rfl
      rw [hb] at hlast
      cases hlast
      rfl
  have h1 : mt.reverse ++ [x] = y :: mr := by
    have h := hmr
    rwa [List.reverse_cons] at h
  have h2 : mr.reverse ++ [y] = x :: mt := by
    have h := congrArg List.reverse h1
    simpa using h.symm
  refine ⟨pre.dropWhile py_isspace, (post.reverse.dropWhile py_isspace).reverse,
    ?_, ?_, ?_⟩
  · have hl : (pre ++ (x :: mt) ++ post).dropWhile py_isspace =
        pre.dropWhile py_isspace ++ (x :: (mt ++ post)) := by
      rw [List.append_assoc, List.cons_append,
        dropWhile_append_head_false py_isspace pre x (mt ++ post) hx]
    have hrev1 : (pre.dropWhile py_isspace ++ (x :: (mt ++ post))).reverse =
        post.reverse ++ (y :: (mr ++ (pre.dropWhile py_isspace).reverse)) := by
      calc (pre.dropWhile py_isspace ++ (x :: (mt ++ post))).reverse
          = post.reverse ++ ((mt.reverse ++ [x]) ++
              (pre.dropWhile py_isspace).reverse) := by
            simp [List.reverse_append, List.append_assoc]
        _ = post.reverse ++ (y :: (mr ++ (pre.dropWhile py_isspace).reverse)) := by
            rw [h1]
            simp
    unfold strip
    rw [hl, hrev1, dropWhile_append_head_false py_isspace post.reverse y _ hy]
    calc ((post.reverse.dropWhile py_isspace) ++
          (y :: (mr ++ (pre.dropWhile py_isspace).reverse))).reverse
        = pre.dropWhile py_isspace ++ ((mr.reverse ++ [y]) ++
            (post.reverse.dropWhile py_isspace).reverse) := by
          simp [List.reverse_append, List.append_assoc]
      _ = pre.dropWhile py_isspace ++ (x :: mt) ++
            (post.reverse.dropWhile py_isspace).reverse := by
          rw [h2]
          simp [List.append_assoc]
  · exact fun c hc => (List.dropWhile_sublist py_isspace).subset hc
  · intro c hc
    rw [List.mem_reverse] at hc
    have hc' := (List.dropWhile_sublist py_isspace).subset hc
    rwa [List.mem_reverse] at hc'

/-! ### Claim theorems -/

/-- Claim C1: for every raw response text, extraction first trims
surrounding whitespace, then locates the index of the first `\x7b` and
the index of the last `\x7d` in the trimmed text; if either is absent it
fails with the no-JSON-structure error, and otherwise it attempts to
parse (and validate) exactly the substring spanning from the first `\x7b`
to the last `\x7d` inclusive. -/
theorem claim_c1_extraction_algorithm (text : List Char) :
    (∃ pre post, text = pre ++ strip text ++ post ∧
        (∀ a ∈ pre, py_isspace a = true) ∧ (∀ b ∈ post, py_isspace b = true)) ∧
    (('{' ∉ strip text ∨ '}' ∉ strip text) →
        extract_json_from_response text = Except.error ExtractError.noJsonStructure) ∧
    (∀ i j, is_first_occurrence (strip text) '{' i →
        is_last_occurrence (strip text) '}' j →
        extract_json_from_response text =
          parse_and_validate (((strip text).drop i).take (j + 1 - i))) := by
  refine ⟨strip_decomposition text, extract_no_brace, ?_⟩
  intro i j hi hj
  exact extract_eq_parse_of_occ hi hj

def c1_text : List Char := " \t\x7b\"a\": 1\x7d \n".toList

/-- Witness for C1 at a concrete response text. -/
theorem claim_c1_witness :
    extract_json_from_response c1_text =
      parse_and_validate (((strip c1_text).drop 0).take 8) :=
  (claim_c1_extraction_algorithm c1_text).2.2 0 7 (by decide) (by decide)

/-- Claim C3: any raw text containing no `\x7b` character or no `\x7d`
character makes extraction fail with the no-JSON-structure error and
with no other kind of error. -/
theorem claim_c3_no_structure_error (text : List Char)
    (h : '{' ∉ text ∨ '}' ∉ text) :
    extract_json_from_response text = Except.error ExtractError.noJsonStructure := by
  refine extract_no_brace ?_
  rcases h with h | h
  · exact Or.inl fun hm => h (mem_of_mem_strip hm)
  · exact Or.inr fun hm => h (mem_of_mem_strip hm)

def c3_text : List Char := "No braces here at all.".toList

/-- Witness for C3 at the end-to-end scenario 3 input. -/
theorem claim_c3_witness :
    extract_json_from_response c3_text = Except.error ExtractError.noJsonStructure :=
  claim_c3_no_structure_error c3_text (by decide)

/-- Claim C4: when the first-to-last-brace substring parses as valid JSON
but at least one of the six required keys is missing, extraction fails
with the missing-keys error — a distinct error kind from a parse error —
even though parsing succeeded. -/
theorem claim_c4_missing_keys (text : List Char) (i j : Nat) (d : Json)
    (hi : is_first_occurrence (strip text) '{' i)
    (hj : is_last_occurrence (strip text) '}' j)
    (hload : json_loads (pyslice (strip text) i (j + 1)) = some d)
    (hmiss : ∃ k ∈ required_keys, json_has_key d k = false) :
    extract_json_from_response text = Except.error ExtractError.missingKeys := by
  rw [extract_eq_parse_of_occ hi hj]
  have hall : required_keys.all (fun k => json_has_key d k) = false := by
    rcases hmiss with ⟨k, hkmem, hkf⟩
    cases hb : required_keys.all (fun k => json_has_key d k) with
    | false => rfl
    | true =>
      have htrue := List.all_eq_true.mp hb k hkmem
      rw [hkf] at htrue
      cases htrue
  unfold parse_and_validate
  rw [hload]
  simp [hall]

def c4_text : List Char := "Here is the lesson: \x7b\"title\": \"X\"\x7d".toList

/-- Witness for C4 at the end-to-end scenario 2 input. -/
theorem claim_c4_witness :
    extract_json_from_response c4_text = Except.error ExtractError.missingKeys :=
  claim_c4_missing_keys c4_text 20 33
    (Json.obj [("title".toList, Json.str "X".toList)])
    (by decide) (by decide) rfl ⟨"category".toList, by decide, rfl⟩

/-- Claim C5: when the first-to-last-brace substring is not valid JSON,
extraction fails by propagating the parse error, and the error carries
the attempted substring (surfaced by `st.code(json_str)` at line 104)
for diagnostics. -/
theorem claim_c5_parse_error_exposes_substring (text : List Char) (i j : Nat)
    (hi : is_first_occurrence (strip text) '{' i)
    (hj : is_last_occurrence (strip text) '}' j)
    (hfail : json_loads (pyslice (strip text) i (j + 1)) = none) :
    extract_json_from_response text =
      Except.error (ExtractError.jsonDecodeError (pyslice (strip text) i (j + 1))) := by
  rw [extract_eq_parse_of_occ hi hj]
  unfold parse_and_validate
  rw [hfail]

def c5_text : List Char :=
  "First \x7b\"a\": 1\x7d and \x7b\"b\": 2\x7d after.".toList

/-- Witness for C5 at a two-block response (end-to-end scenario 4). -/
theorem claim_c5_witness :
    extract_json_from_response c5_text =
      Except.error (ExtractError.jsonDecodeError (pyslice (strip c5_text) 6 27)) :=
  claim_c5_parse_error_exposes_substring c5_text 6 26 (by decide) (by decide) rfl

/-- Claim C6: when the extracted substring parses to a JSON value with
all six required top-level keys, extraction accepts it whatever the
nested structure looks like: no deeper structural or type validation is
performed. -/
theorem claim_c6_no_deep_validation (text : List Char) (i j : Nat) (d : Json)
    (hi : is_first_occurrence (strip text) '{' i)
    (hj : is_last_occurrence (strip text) '}' j)
    (hload : json_loads (pyslice (strip text) i (j + 1)) = some d)
    (hall : ∀ k ∈ required_keys, json_has_key d k = true) :
    extract_json_from_response text = Except.ok d := by
  rw [extract_eq_parse_of_occ hi hj]
  unfold parse_and_validate
  rw [hload]
  simp [List.all_eq_true.mpr hall]

/-- A key-complete lesson whose nested structure is malformed: the
options list has 2 entries instead of 4 and the correct-answer index 7 is
out of range. -/
def c6_lesson : Json :=
  Json.obj [("title".toList, Json.str "T".toList),
    ("category".toList, Json.str "science".toList),
    ("concept".toList, Json.str "C".toList),
    ("exercise".toList, Json.obj
      [("options".toList, Json.arr [Json.str "a".toList, Json.str "b".toList]),
       ("correctAnswer".toList, Json.num "7".toList)]),
    ("practicalApplication".toList, Json.str "P".toList),
    ("reflection".toList, Json.str "R".toList)]

def c6_text : List Char :=
  ("\x7b\"title\": \"T\", \"category\": \"science\", \"concept\": \"C\", " ++
   "\"exercise\": \x7b\"options\": [\"a\", \"b\"], \"correctAnswer\": 7\x7d, " ++
   "\"practicalApplication\": \"P\", \"reflection\": \"R\"\x7d").toList

/-- Witness for C6: the malformed-but-key-complete lesson is accepted. -/
theorem claim_c6_witness :
    extract_json_from_response c6_text = Except.ok c6_lesson :=
  claim_c6_no_deep_validation c6_text 0 157 c6_lesson
    (by decide) (by decide) rfl (by decide)

/-- A syntactically valid JSON object carrying all six required keys. -/
def c2_json : List Char :=
  ("\x7b\"title\": 1, \"category\": 2, \"concept\": 3, \"exercise\": 4, " ++
   "\"practicalApplication\": 5, \"reflection\": 6\x7d").toList

/-- The value `json.loads` gives for `c2_json`. -/
def c2_lesson : Json :=
  Json.obj [("title".toList, Json.num "1".toList),
    ("category".toList, Json.num "2".toList),
    ("concept".toList, Json.num "3".toList),
    ("exercise".toList, Json.num "4".toList),
    ("practicalApplication".toList, Json.num "5".toList),
    ("reflection".toList, Json.num "6".toList)]

/-- Non-JSON prose that happens to contain a `\x7b` of its own. -/
def c2_pre : List Char := "Here you go: \x7b ".toList

/-- Claim C2 as stated is false: this raw text contains a syntactically
valid JSON object with all six required keys preceded by non-JSON text,
yet extraction does not return the object — the stray `\x7b` in the
preceding text widens the first-to-last-brace slice to an unparseable
string, so extraction fails with a parse error. -/
theorem claim_c2_counterexample :
    json_loads c2_json = some c2_lesson ∧
    required_keys.all (fun k => json_has_key c2_lesson k) = true ∧
    extract_json_from_response (c2_pre ++ c2_json) =
      Except.error (ExtractError.jsonDecodeError ("\x7b ".toList ++ c2_json)) ∧
    extract_json_from_response (c2_pre ++ c2_json) ≠ Except.ok c2_lesson := by
  refine ⟨rfl, by decide, rfl, ?_⟩
  intro hc
  have h1 : extract_json_from_response (c2_pre ++ c2_json) =
      Except.error (ExtractError.jsonDecodeError ("\x7b ".toList ++ c2_json)) := rfl
  rw [h1] at hc
  exact Except.noConfusion hc

/-- Claim C2 amended: extraction returns the embedded key-complete JSON
object unchanged for arbitrary surrounding non-JSON text, provided the
preceding text contains no `\x7b` and the following text contains no
`\x7d` (the serialized object itself begins with `\x7b` and ends with
`\x7d`). -/
theorem claim_c2_amended_roundtrip (pre mid post : List Char) (d : Json)
    (hload : json_loads mid = some d)
    (hkeys : ∀ k ∈ required_keys, json_has_key d k = true)
    (hhead : mid.head? = some '{') (hlast : mid.getLast? = some '}')
    (hpre : '{' ∉ pre) (hpost : '}' ∉ post) :
    extract_json_from_response (pre ++ mid ++ post) = Except.ok d := by
  obtain ⟨pre2, post2, hstrip, hpre2, hpost2⟩ :=
    strip_append_mid hhead hlast (by decide) (by decide)
  obtain ⟨mt, rfl⟩ : ∃ mt, mid = '{' :: mt := by
    cases mid with
    | nil => cases hhead
    | cons a mt => exact ⟨mt, by cases hhead; rfl⟩
  obtain ⟨mr, hmr⟩ : ∃ mr, ('{' :: mt).reverse = '}' :: mr := by
    cases hrev : ('{' :: mt).reverse with
    | nil => exact absurd (congrArg List.length hrev) (by simp)
    | cons b mr =>
      refine ⟨mr, ?_⟩
      have hb : ('{' :: mt).getLast? = some b := by
        rw [← List.head?_reverse, hrev]
        rfl
      rw [hb] at hlast
      cases hlast
      rfl
  have hmem_pre2 : '{' ∉ pre2 := fun hm => hpre (hpre2 _ hm)
  have hmem_post2 : '}' ∉ post2 := fun hm => hpost (hpost2 _ hm)
  have hfind : find_from '{' (pre2 ++ ('{' :: mt) ++ post2) = some pre2.length := by
    rw [List.append_assoc, find_from_append_of_not_mem hmem_pre2]
    simp [List.cons_append, find_from]
  have hrevshape : (pre2 ++ ('{' :: mt) ++ post2).reverse =
      post2.reverse ++ ('}' :: (mr ++ pre2.reverse)) := by
    calc (pre2 ++ ('{' :: mt) ++ post2).reverse
        = post2.reverse ++ (('{' :: mt).reverse ++ pre2.reverse) := by
          simp [List.reverse_append, List.append_assoc]
      _ = post2.reverse ++ ('}' :: (mr ++ pre2.reverse)) := by
          rw [hmr]
          simp
  have hfindr : find_from '}' ((pre2 ++ ('{' :: mt) ++ post2).reverse) =
      some post2.length := by
    rw [hrevshape, find_from_append_of_not_mem
      (fun hm => hmem_post2 (List.mem_reverse.mp hm))]
    simp [find_from]
  have hrfind : rfind_from '}' (pre2 ++ ('{' :: mt) ++ post2) =
      some (pre2.length + mt.length) := by
    unfold rfind_from
    rw [hfindr]
    have hlen : (pre2 ++ ('{' :: mt) ++ post2).length =
        pre2.length + (mt.length + 1) + post2.length := by
      simp [List.length_append]
      omega
    rw [hlen]
    have harith : pre2.length + (mt.length + 1) + post2.length - 1 - post2.length =
        pre2.length + mt.length := by omega
    simp [harith]
  have hi : is_first_occurrence (strip (pre ++ ('{' :: mt) ++ post)) '{'
      pre2.length := by
    rw [hstrip]
    exact (find_from_some hfind).imp (fun h => h) (fun h => h)
  have hj : is_last_occurrence (strip (pre ++ ('{' :: mt) ++ post)) '}'
      (pre2.length + mt.length) := by
    rw [hstrip]
    exact rfind_from_some hrfind
  rw [extract_eq_parse_of_occ hi hj]
  have hslice : pyslice (strip (pre ++ ('{' :: mt) ++ post)) pre2.length
      (pre2.length + mt.length + 1) = '{' :: mt := by
    rw [hstrip]
    unfold pyslice
    rw [List.append_assoc, List.drop_left]
    have harith : pre2.length + mt.length + 1 - pre2.length = ('{' :: mt).length := by
      simp [List.length_cons]
      omega
    rw [harith, List.take_left]
  rw [hslice]
  unfold parse_and_validate
  rw [hload]
  simp [List.all_eq_true.mpr hkeys]

def c2_post : List Char := " Enjoy the lesson!".toList

/-- Witness for the amended C2: prose before and after, no stray braces. -/
theorem claim_c2_witness :
    extract_json_from_response ("Sure: ".toList ++ c2_json ++ c2_post) =
      Except.ok c2_lesson :=
  claim_c2_amended_roundtrip "Sure: ".toList c2_json c2_post c2_lesson rfl
    (by decide) rfl (by decide) (by decide) (by decide)

/-- Claim C10: when the last `\x7d` occurs before the first `\x7b`, both
braces are found, so extraction does not fail with the no-JSON-structure
error; the spanned substring (empty, since the Python slice of a reversed
range is empty) is handed to the JSON parser, and extraction fails with a
parse error instead. -/
theorem claim_c10_reversed_braces (text : List Char) (i j : Nat)
    (hi : is_first_occurrence (strip text) '{' i)
    (hj : is_last_occurrence (strip text) '}' j)
    (hji : j < i) :
    extract_json_from_response text ≠ Except.error ExtractError.noJsonStructure ∧
    extract_json_from_response text = Except.error (ExtractError.jsonDecodeError []) := by
  have he := extract_eq_parse_of_occ hi hj
  have hslice : pyslice (strip text) i (j + 1) = [] := by
    unfold pyslice
    have hz : j + 1 - i = 0 := by omega
    rw [hz, List.take_zero]
  rw [hslice] at he
  refine ⟨?_, he⟩
  rw [he]
  intro hc
  exact absurd (Except.error.inj hc) (by decide)

def c10_text : List Char := "\x7d then \x7b".toList

/-- Witness for C10 at the example input. -/
theorem claim_c10_witness :
    extract_json_from_response c10_text ≠ Except.error ExtractError.noJsonStructure ∧
    extract_json_from_response c10_text =
      Except.error (ExtractError.jsonDecodeError []) :=
  claim_c10_reversed_braces c10_text 7 0 (by decide) (by decide) (by decide)

/-- A fully well-formed lesson response with the six required keys. -/
def c7_response : List Char :=
  ("\x7b\"title\": \"T\", \"category\": \"science\", \"concept\": \"C\", " ++
   "\"exercise\": \"E\", \"practicalApplication\": \"P\", " ++
   "\"reflection\": \"R\"\x7d").toList

/-- The value `json.loads` gives for `c7_response`. -/
def c7_lesson : Json :=
  Json.obj [("title".toList, Json.str "T".toList),
    ("category".toList, Json.str "science".toList),
    ("concept".toList, Json.str "C".toList),
    ("exercise".toList, Json.str "E".toList),
    ("practicalApplication".toList, Json.str "P".toList),
    ("reflection".toList, Json.str "R".toList)]

/-- A run in which both completion calls succeed and the second returns a
parseable, key-complete lesson. -/
def c7_api : GroqApi :=
  GroqApi.mk (Except.ok "Quantum computing basics".toList) (Except.ok c7_response)

/-- Claim C7 names a behaviour the code does not have.  Even with both
completion calls succeeding and the response extracting to a valid lesson
(first conjunct), `generate_lesson` returns `None`: line 111 evaluates
`groq.Groq(api_key=api_key)`, but line 2 (`from groq import Groq`) binds
only `Groq`, so the unbound name `groq` raises `NameError`, which the
`except Exception` clause at line 150 converts to `None` — on every call,
before any API traffic.  The second conjunct evaluates the orchestrator
at this failing input. -/
theorem claim_c7_groq_name_bug :
    extract_json_from_response c7_response = Except.ok c7_lesson ∧
    generate_lesson c7_api "science".toList "gsk_demo_key".toList =
      (none,
       ["Error details: name groq is not defined".toList,
        "Response received:".toList,
        "No response received".toList]) :=
  ⟨rfl, rfl⟩

/-- Claim C8: every failure arising inside the `try` block of
`generate_lesson` — transport/API error, no-JSON-structure error, parse
error, or missing-keys error, all of them values of `PyExn` — is caught
at the orchestration boundary and converted into a null result plus
non-empty user-visible diagnostics.  `generate_lesson` is a total
function into plain pairs, so no exception propagates past it. -/
theorem claim_c8_failures_contained (api : GroqApi) (category api_key : List Char)
    (e : PyExn) (hfail : generate_lesson_try api category api_key = Except.error e) :
    (generate_lesson api category api_key).1 = none ∧
    (generate_lesson api category api_key).2 ≠ [] := by
  unfold generate_lesson
  rw [hfail]
  exact ⟨rfl, by simp⟩

/-- A run whose first completion call fails with a rate-limit error. -/
def c8_api : GroqApi :=
  GroqApi.mk (Except.error "rate limit".toList) (Except.ok "unused".toList)

/-- Witness for C8 at a concrete failing run. -/
theorem claim_c8_witness :
    (generate_lesson c8_api "history".toList "gsk_k".toList).1 = none ∧
    (generate_lesson c8_api "history".toList "gsk_k".toList).2 ≠ [] :=
  claim_c8_failures_contained c8_api "history".toList "gsk_k".toList
    (PyExn.nameError "groq".toList) rfl

/-- Claim C9: when a generation attempt yields no lesson, the session
state — current lesson, selected answer, reflection text — is left
unchanged; and the state is only ever replaced when generation returns a
non-null lesson, in which case the new lesson is stored with the selected
answer cleared and the reflection text reset. -/
theorem claim_c9_state_preservation (api : GroqApi) (category api_key : List Char)
    (s : SessionState) :
    ((generate_lesson api category api_key).1 = none →
        main_generate_step api category api_key s = s) ∧
    (main_generate_step api category api_key s ≠ s →
      ∃ lesson, (generate_lesson api category api_key).1 = some lesson ∧
        main_generate_step api category api_key s =
          SessionState.mk (some lesson) none []) := by
  unfold main_generate_step
  cases hr : (generate_lesson api category api_key).1 with
  | none => exact ⟨fun _ => rfl, fun hne => absurd rfl hne⟩
  | some lesson =>
    constructor
    · intro hcontra
      exact Option.noConfusion hcontra
    · intro hne
      by_cases ht : py_truthy lesson = true
      · exact ⟨lesson, rfl, by simp [apply_lesson_result, ht]⟩
      · exact absurd (by simp [apply_lesson_result, ht]) hne

/-- A run that fails (the second response holds no JSON at all — though
with the unbound `groq` the body fails even earlier). -/
def c9_api : GroqApi :=
  GroqApi.mk (Except.ok "topic".toList) (Except.ok "no json here".toList)

/-- A session state holding a prior lesson, a selected answer and some
reflection text. -/
def c9_prior : SessionState :=
  SessionState.mk (some (Json.str "old lesson".toList)) (some 2) "thoughts".toList

/-- Witness for C9: the failed attempt leaves the prior state intact. -/
theorem claim_c9_witness :
    main_generate_step c9_api "science".toList "gsk_w".toList c9_prior = c9_prior :=
  (claim_c9_state_preservation c9_api "science".toList "gsk_w".toList c9_prior).1 rfl

end BiteSized
